import Mathlib

/-!
Shallow embedding of `whisper/whisper05/message.go` (go-ethereum Whisper
v0.5 message pipeline).  Bytes are modelled as `Nat` (kept below 256 where
the code guarantees it), byte slices as `List Nat`.  External cryptographic
primitives (Keccak-256, ECDSA, ECIES, AES-GCM, PBKDF2) and the ambient RNG
are not repository code; they are passed in as explicit function
parameters, so every theorem is parametric in their behaviour.  Constants
and small helpers of the package that live outside `message.go` are
modelled from the specification and marked as such.
-/

namespace Whisper05

/-- Modelled from the spec: `signatureLength=65` (constants table; the
constant is defined outside `message.go`). -/
def signatureLength : Nat := 65

/-- Modelled from the spec: `padSizeLowerLimit = 256` (constants table). -/
def padSizeLimitLower : Nat := 256

/-- Modelled from the spec: `padSizeUpperLimit = 256` (constants table). -/
def padSizeLimitUpper : Nat := 256

/-- Modelled from the spec: `aesKeyLength=32` (constants table). -/
def aesKeyLength : Nat := 32

/-- Modelled from the spec: `saltLength=12` (constants table). -/
def saltLength : Nat := 12

/-- Modelled from the spec: `msgMaxLength=262144` (constants table). -/
def msgMaxLength : Nat := 262144

/-- Modelled from the spec: `DefaultTTL=50 seconds` (constants table). -/
def DefaultTTL : Nat := 50

/-- Modelled from the spec: the only envelope version understood is `0`. -/
def EnvelopeVersion : Nat := 0

/-- Modelled from the spec: flags-byte layout, bits 0 and 1 hold
`padSizeLen`, so the padding mask is `0x3`. -/
def paddingMask : Nat := 3

/-- Modelled from the spec: flags-byte layout, bit 2 is the `signed`
flag, so the signature flag is `0x4`. -/
def signatureFlag : Nat := 4

/-- Modelled from the spec: the first `padSizeLen` bytes of the padding
block encode the padding length in little-endian (helper defined outside
`message.go`). -/
def bytesToIntLittleEndian : List Nat → Nat
  | [] => 0
  | b :: rest => b + 256 * bytesToIntLittleEndian rest

/-- `isMessageSigned` from `message.go`: tests the signature flag bit. -/
def isMessageSigned (flags : Nat) : Bool := flags &&& signatureFlag ≠ 0

/-- `isMessagePadded` from `message.go`: tests the padding-size bits. -/
def isMessagePadded (flags : Nat) : Bool := flags &&& paddingMask ≠ 0

/-- `MessageParams` from `message.go`.  Keys are opaque handles (`Nat` for
asymmetric keys); `keySym = none` models a nil Go slice. -/
structure MessageParams where
  ttl : Nat
  src : Option Nat
  dst : Option Nat
  keySym : Option (List Nat)
  topic : Nat
  payload : List Nat
  padding : Option (List Nat)

/-- `SentMessage` from `message.go`: the mutable plaintext buffer. -/
structure SentMessage where
  raw : List Nat
deriving DecidableEq

/-- Go's `copy(dst, src)` on equally indexed slices: overwrite the prefix
of `dst` with as much of `src` as fits, keep the tail of `dst`. -/
def copyOver (dst src : List Nat) : List Nat :=
  src.take (min dst.length src.length) ++ dst.drop (min dst.length src.length)

/-- The tail of the padding block built by `appendPadding`: `padSize - 1`
random bytes, overwritten by the caller-supplied `Padding` when present. -/
def padTail (rand : Nat → Nat) (params : MessageParams) (padSize : Nat) : List Nat :=
  let randTail := (List.range (padSize - 1)).map fun i => rand i % 256
  match params.padding with
  | none => randTail
  | some p => copyOver randTail p

/-- `SentMessage.appendPadding` from `message.go`.  The `rand` stream
stands for `crand.Read`; the Go `panic` on `padSize > 255` is modelled as
the `.error` result. -/
def appendPadding (rand : Nat → Nat) (params : MessageParams) (msg : SentMessage) :
    Except String SentMessage :=
  let total := params.payload.length + 1 +
    (if params.src.isSome then signatureLength else 0)
  let padChunk := if total ≤ padSizeLimitLower then padSizeLimitLower else padSizeLimitUpper
  let odd := total % padChunk
  if odd > 0 then
    let padSize := padChunk - odd
    if padSize > 255 then
      .error "please fix the padding algorithm before releasing new version"
    else
      let buf := padSize :: padTail rand params padSize
      let raw2 := msg.raw ++ buf
      .ok ⟨raw2.set 0 ((raw2.headD 0) ||| 1)⟩
  else
    .ok msg

/-- `NewSentMessage` from `message.go`: random flags byte with the padding
and signature bits cleared, then padding, then the payload.  `flagsRand`
stands for the random byte read by `crand.Read`. -/
def NewSentMessage (flagsRand : Nat) (rand : Nat → Nat) (params : MessageParams) :
    Except String SentMessage :=
  let flags := ((flagsRand % 256) &&& (255 ^^^ paddingMask)) &&& (255 ^^^ signatureFlag)
  match appendPadding rand params ⟨[flags]⟩ with
  | .error e => .error e
  | .ok m => .ok ⟨m.raw ++ params.payload⟩

/-- `SentMessage.sign` from `message.go`, verbatim control flow.
`ecdsaSign digest key` returns the slice and error produced by
`crypto.Sign`.  Note the code appends the signature and sets the flag
inside the `err != nil` branch. -/
def sign (keccak : List Nat → List Nat)
    (ecdsaSign : List Nat → Nat → List Nat × Option String)
    (key : Nat) (msg : SentMessage) : SentMessage × Option String :=
  if isMessageSigned (msg.raw.headD 0) then
    (msg, none)
  else
    let hash := keccak msg.raw
    let res := ecdsaSign hash key
    match res.2 with
    | none => (msg, none)
    | some e =>
      let raw2 := msg.raw ++ res.1
      (⟨raw2.set 0 ((raw2.headD 0) ||| signatureFlag)⟩, some e)

/-- `DeriveOneTimeKey` from `message.go`.  `pbkdf2Key key salt iter dkLen`
stands for the external `pbkdf2.Key(key, salt, iter, dkLen, sha256.New)`;
the code calls it with iteration count `16` and `aesKeyLength` output. -/
def DeriveOneTimeKey (pbkdf2Key : List Nat → List Nat → Nat → Nat → List Nat)
    (key salt : List Nat) (version : Nat) : Except String (List Nat) :=
  if version = 0 then
    .ok (pbkdf2Key key salt 16 aesKeyLength)
  else
    .error "DeriveKey: invalid envelope version"

/-- The derivation the specification describes: PBKDF2 with a fixed
iteration count of `65536` and a 32-byte output. -/
def DeriveOneTimeKeySpec (pbkdf2Key : List Nat → List Nat → Nat → Nat → List Nat)
    (key salt : List Nat) : List Nat :=
  pbkdf2Key key salt 65536 aesKeyLength

/-- Modelled from the spec: a symmetric key is valid when it is non-empty
and not all zero (spec §4.C rejects an all-zero derived key; the helper is
defined outside `message.go`). -/
def validateSymmetricKey (k : List Nat) : Bool :=
  decide (k.length > 0) && k.any fun b => b ≠ 0

/-- `Envelope`, modelled from the spec: assembled from TTL, topic, salt,
nonce and the encrypted message data (the envelope type is defined outside
`message.go`). -/
structure Envelope where
  ttl : Nat
  topic : Nat
  salt : List Nat
  nonce : List Nat
  data : List Nat
deriving DecidableEq

/-- Modelled from the spec: `NewEnvelope` assembles the on-wire envelope
from TTL/topic/salt/nonce and the message buffer. -/
def NewEnvelope (ttl topic : Nat) (salt nonce : List Nat) (msg : SentMessage) : Envelope :=
  ⟨ttl, topic, salt, nonce, msg.raw⟩

/-- The external primitives and RNG draws the pipeline consumes.  AES
block and AEAD handles are opaque `Nat`s; `seal` stands for the PoW
`Envelope.Seal` (defined outside `message.go`). -/
structure Prims where
  keccak256 : List Nat → List Nat
  ecdsaSign : List Nat → Nat → List Nat × Option String
  validatePublicKey : Nat → Bool
  eciesEncrypt : Nat → List Nat → Except String (List Nat)
  eciesDecrypt : Nat → List Nat → Except String (List Nat)
  sigToPub : List Nat → List Nat → Option Nat
  pbkdf2Key : List Nat → List Nat → Nat → Nat → List Nat
  aesNewCipher : List Nat → Except String Nat
  newGCM : Nat → Except String Nat
  nonceSize : Nat → Nat
  gcmSeal : Nat → List Nat → List Nat → List Nat
  gcmOpen : Nat → List Nat → List Nat → Except String (List Nat)
  sealEnv : Envelope → Envelope
  saltRand : List Nat
  nonceRand : Nat → List Nat
  rand : Nat → Nat
  flagsRand : Nat

/-- `SentMessage.encryptAsymmetric` from `message.go`. -/
def encryptAsymmetric (P : Prims) (key : Nat) (msg : SentMessage) :
    Except String SentMessage :=
  if ¬ P.validatePublicKey key then
    .error "Invalid public key provided for asymmetric encryption"
  else
    match P.eciesEncrypt key msg.raw with
    | .ok enc => .ok ⟨enc⟩
    | .error e => .error e

/-- `SentMessage.encryptSymmetric` from `message.go`: derive a one-time
key from a fresh salt, then seal with AES-GCM under a fresh nonce. -/
def encryptSymmetric (P : Prims) (key : List Nat) (msg : SentMessage) :
    Except String (List Nat × List Nat × SentMessage) :=
  if ¬ validateSymmetricKey key then
    .error "encryptSymmetric: invalid key provided for symmetric encryption"
  else
    let salt := P.saltRand
    if ¬ validateSymmetricKey salt then
      .error "encryptSymmetric: failed to generate salt"
    else
      match DeriveOneTimeKey P.pbkdf2Key key salt EnvelopeVersion with
      | .error e => .error e
      | .ok derivedKey =>
        if ¬ validateSymmetricKey derivedKey then
          .error "encryptSymmetric: invalid key derived"
        else
          match P.aesNewCipher derivedKey with
          | .error e => .error e
          | .ok block =>
            match P.newGCM block with
            | .error e => .error e
            | .ok aesgcm =>
              let nonce := P.nonceRand (P.nonceSize aesgcm)
              .ok (salt, nonce, ⟨P.gcmSeal aesgcm nonce msg.raw⟩)

/-- `SentMessage.Wrap` from `message.go`: default the TTL, sign when `Src`
is present, enforce the size bound, then choose the encryption mode
(`Dst` first, then `KeySym`, else fail) and assemble + seal the envelope. -/
def Wrap (P : Prims) (options : MessageParams) (msg : SentMessage) :
    Except String Envelope :=
  let ttl := if options.ttl = 0 then DefaultTTL else options.ttl
  let signedStep : Except String SentMessage :=
    match options.src with
    | some key =>
      let res := sign P.keccak256 P.ecdsaSign key msg
      match res.2 with
      | some e => .error e
      | none => .ok res.1
    | none => .ok msg
  match signedStep with
  | .error e => .error e
  | .ok m =>
    if m.raw.length > msgMaxLength then
      .error "Oversized message"
    else
      match options.dst with
      | some pk =>
        match encryptAsymmetric P pk m with
        | .error e => .error e
        | .ok m2 => .ok (P.sealEnv (NewEnvelope ttl options.topic [] [] m2))
      | none =>
        match options.keySym with
        | some k =>
          match encryptSymmetric P k m with
          | .error e => .error e
          | .ok (salt, nonce, m2) => .ok (P.sealEnv (NewEnvelope ttl options.topic salt nonce m2))
        | none => .error "Unable to encrypt the message: neither Dst nor Key"

/-- The all-zero `common.Hash`. -/
def zeroHash : List Nat := List.replicate 32 0

/-- `ReceivedMessage` from `message.go` (the fields the validation and
decryption paths touch). -/
structure ReceivedMessage where
  raw : List Nat
  payload : List Nat := []
  padding : List Nat := []
  signature : List Nat := []
  src : Option Nat := none
  dst : Option Nat := none
  topicKeyHash : List Nat := zeroHash
  envelopeVersion : Nat := 0
deriving DecidableEq

/-- `ReceivedMessage.isSymmetricEncryption` from `message.go`. -/
def isSymmetricEncryption (m : ReceivedMessage) : Bool :=
  m.topicKeyHash != zeroHash

/-- `ReceivedMessage.isAsymmetricEncryption` from `message.go`. -/
def isAsymmetricEncryption (m : ReceivedMessage) : Bool :=
  m.dst.isSome

/-- `ReceivedMessage.decryptSymmetric` from `message.go`: every failing
step returns the error with `Raw` untouched; only a successful
`aesgcm.Open` replaces `Raw`. -/
def decryptSymmetric (P : Prims) (m : ReceivedMessage) (key salt nonce : List Nat) :
    ReceivedMessage × Option String :=
  match DeriveOneTimeKey P.pbkdf2Key key salt m.envelopeVersion with
  | .error e => (m, some e)
  | .ok derivedKey =>
    match P.aesNewCipher derivedKey with
    | .error e => (m, some e)
    | .ok block =>
      match P.newGCM block with
      | .error e => (m, some e)
      | .ok aesgcm =>
        if nonce.length ≠ P.nonceSize aesgcm then
          (m, some "Wrong AES nonce size")
        else
          match P.gcmOpen aesgcm nonce m.raw with
          | .error e => (m, some e)
          | .ok decrypted => ({ m with raw := decrypted }, none)

/-- `ReceivedMessage.decryptAsymmetric` from `message.go`. -/
def decryptAsymmetric (P : Prims) (m : ReceivedMessage) (key : Nat) :
    ReceivedMessage × Option String :=
  match P.eciesDecrypt key m.raw with
  | .ok decrypted => ({ m with raw := decrypted }, none)
  | .error e => (m, some e)

/-- `ReceivedMessage.extractPadding` from `message.go`: read `padSizeLen`
from the flags byte, decode the little-endian padding size, reject when it
is smaller than `padSizeLen` or overruns the buffer. -/
def extractPadding (m : ReceivedMessage) (endPos : Nat) : ReceivedMessage × Nat × Bool :=
  let sz := (m.raw.headD 0) &&& paddingMask
  if sz ≠ 0 then
    let paddingSize := bytesToIntLittleEndian ((m.raw.drop 1).take sz)
    if paddingSize < sz ∨ paddingSize + 1 > endPos then
      (m, 0, false)
    else
      ({ m with padding := (m.raw.drop (1 + sz)).take (paddingSize - sz) }, paddingSize, true)
  else
    (m, 0, true)

/-- `ReceivedMessage.hash` from `message.go`: Keccak over the buffer, with
the trailing signature excluded when present. -/
def msgHash (keccak : List Nat → List Nat) (m : ReceivedMessage) : List Nat :=
  if isMessageSigned (m.raw.headD 0) then
    keccak (m.raw.take (m.raw.length - signatureLength))
  else
    keccak m.raw

/-- `ReceivedMessage.Recover` from `message.go`: `sigToPub` stands for
`crypto.SigToPub`, returning `none` on any recovery failure. -/
def Recover (keccak : List Nat → List Nat) (sigToPub : List Nat → List Nat → Option Nat)
    (m : ReceivedMessage) : Option Nat :=
  sigToPub (msgHash keccak m) m.signature

/-- The tail of `ReceivedMessage.Validate` after the signature has been
handled: extract the padding, slice out the payload, and require exactly
one encryption mode. -/
def validateTail (m : ReceivedMessage) (endPos : Nat) : ReceivedMessage × Bool :=
  match extractPadding m endPos with
  | (m1, _, false) => (m1, false)
  | (m1, padSize, true) =>
    let m2 := { m1 with payload := (m1.raw.drop (1 + padSize)).take (endPos - (1 + padSize)) }
    (m2, isSymmetricEncryption m2 != isAsymmetricEncryption m2)

/-- `ReceivedMessage.Validate` from `message.go`. -/
def Validate (keccak : List Nat → List Nat) (sigToPub : List Nat → List Nat → Option Nat)
    (m : ReceivedMessage) : ReceivedMessage × Bool :=
  let endPos := m.raw.length
  if endPos < 1 then
    (m, false)
  else if isMessageSigned (m.raw.headD 0) then
    let endSig := endPos - signatureLength
    if endSig ≤ 1 then
      (m, false)
    else
      let m1 := { m with signature := m.raw.drop endSig }
      match Recover keccak sigToPub m1 with
      | none => ({ m1 with src := none }, false)
      | some pk => validateTail { m1 with src := some pk } endSig
  else
    validateTail m endPos

/-- The plaintext size `appendPadding` pads to a multiple of the chunk:
`len(payload) + 1` plus the reserved signature bytes when `Src` is set. -/
def totalOf (params : MessageParams) : Nat :=
  params.payload.length + 1 + (if params.src.isSome then signatureLength else 0)

/-- The flags byte `NewSentMessage` builds from a random byte. -/
def newFlags (f : Nat) : Nat :=
  ((f % 256) &&& (255 ^^^ paddingMask)) &&& (255 ^^^ signatureFlag)

/-- Identity stand-in for Keccak-256, used to instantiate theorems. -/
def keccakId : List Nat → List Nat := fun l => l

/-- A `crypto.Sign` stand-in that always succeeds with a 65-byte slice. -/
def ecdsaSignOk : List Nat → Nat → List Nat × Option String :=
  fun _ _ => (List.replicate signatureLength 7, none)

/-- A `crypto.Sign` stand-in that always fails with a nil slice. -/
def ecdsaSignFail : List Nat → Nat → List Nat × Option String :=
  fun _ _ => ([], some "sign failed")

/-- A `pbkdf2.Key` stand-in that reports the iteration count it was
called with. -/
def pbkdf2Probe : List Nat → List Nat → Nat → Nat → List Nat :=
  fun _ _ iter _ => [iter]

/-- A concrete primitive bundle for instantiating theorems. -/
def P0 : Prims where
  keccak256 := fun l => l
  ecdsaSign := fun _ _ => (List.replicate signatureLength 7, none)
  validatePublicKey := fun _ => true
  eciesEncrypt := fun _ d => .ok d
  eciesDecrypt := fun _ d => .ok d
  sigToPub := fun _ _ => some 1
  pbkdf2Key := fun _ _ _ _ => List.replicate 32 1
  aesNewCipher := fun _ => .error "no cipher"
  newGCM := fun _ => .ok 0
  nonceSize := fun _ => 12
  gcmSeal := fun _ _ d => d
  gcmOpen := fun _ _ _ => .error "auth failed"
  sealEnv := fun e => e
  saltRand := List.replicate 12 1
  nonceRand := fun n => List.replicate n 2
  rand := fun _ => 0
  flagsRand := 0

/-- Parameters with both `Dst` and `KeySym` set. -/
def bothSetParams : MessageParams :=
  { ttl := 10, src := none, dst := some 1, keySym := some (List.replicate 32 1),
    topic := 0, payload := [1], padding := none }

/-- Parameters with neither `Dst` nor `KeySym` set. -/
def neitherParams : MessageParams :=
  { ttl := 0, src := none, dst := none, keySym := none,
    topic := 0, payload := [], padding := none }

/-- Parameters with a 254-byte payload: total is 255, one padding byte. -/
def params254 : MessageParams :=
  { ttl := 0, src := none, dst := none, keySym := none,
    topic := 0, payload := List.replicate 254 9, padding := none }

/-- The message `NewSentMessage` builds from `params254` with zero
randomness: flags byte 1, one-byte padding block `[1]`, then payload. -/
def msg254 : SentMessage := ⟨1 :: 1 :: List.replicate 254 9⟩

/-- A decrypted buffer whose flags byte announces a one-byte padding-size
field encoding padding length zero: malformed. -/
def badPadMsg : ReceivedMessage := { raw := [1, 0] }

/-- A well-formed unpadded, unsigned symmetric-mode received message. -/
def symMsg : ReceivedMessage := { raw := [0], topicKeyHash := List.replicate 32 1 }

/-- A received message for exercising the decryption paths. -/
def rcv0 : ReceivedMessage := { raw := [1, 2] }

/-! ## Helper lemmas -/

lemma flags_bits : ∀ f < 256,
    ((f &&& (255 ^^^ paddingMask)) &&& (255 ^^^ signatureFlag)) &&& paddingMask = 0 ∧
    ((f &&& (255 ^^^ paddingMask)) &&& (255 ^^^ signatureFlag)) &&& signatureFlag = 0 ∧
    ((((f &&& (255 ^^^ paddingMask)) &&& (255 ^^^ signatureFlag)) ||| 1) &&& paddingMask) = 1 := by
  set_option maxRecDepth 100000 in decide

lemma newFlags_bits (f : Nat) :
    newFlags f &&& paddingMask = 0 ∧ newFlags f &&& signatureFlag = 0 ∧
    (newFlags f ||| 1) &&& paddingMask = 1 :=
  flags_bits (f % 256) (Nat.mod_lt _ (by norm_num))

lemma copyOver_length (dst src : List Nat) : (copyOver dst src).length = dst.length := by
  simp [copyOver]
  try omega

lemma padTail_length (r : Nat → Nat) (p : MessageParams) (s : Nat) :
    (padTail r p s).length = s - 1 := by
  cases hp : p.padding <;> simp [padTail, hp, copyOver_length]

lemma appendPadding_noPad (rand : Nat → Nat) (params : MessageParams) (msg : SentMessage)
    (h : totalOf params % 256 = 0) :
    appendPadding rand params msg = .ok msg := by
  unfold totalOf at h
  unfold appendPadding
  simp only [padSizeLimitLower, padSizeLimitUpper, ite_self]
  rw [if_neg (by omega)]

lemma appendPadding_pad (rand : Nat → Nat) (params : MessageParams) (msg : SentMessage)
    (h : totalOf params % 256 ≠ 0) :
    appendPadding rand params msg = .ok
      ⟨(msg.raw ++ (256 - totalOf params % 256) ::
          padTail rand params (256 - totalOf params % 256)).set 0
        (((msg.raw ++ (256 - totalOf params % 256) ::
          padTail rand params (256 - totalOf params % 256)).headD 0) ||| 1)⟩ := by
  unfold totalOf at h ⊢
  unfold appendPadding
  simp only [padSizeLimitLower, padSizeLimitUpper, ite_self]
  rw [if_pos (by omega), if_neg (by omega)]

lemma newSentMessage_noPad (f : Nat) (r : Nat → Nat) (p : MessageParams)
    (h : totalOf p % 256 = 0) :
    NewSentMessage f r p = .ok ⟨newFlags f :: p.payload⟩ := by
  have ha := appendPadding_noPad r p ⟨[newFlags f]⟩ h
  simp only [NewSentMessage, newFlags] at ha ⊢
  rw [ha]
  rfl

lemma newSentMessage_pad (f : Nat) (r : Nat → Nat) (p : MessageParams)
    (h : totalOf p % 256 ≠ 0) :
    NewSentMessage f r p = .ok ⟨(newFlags f ||| 1) :: (256 - totalOf p % 256) ::
      (padTail r p (256 - totalOf p % 256) ++ p.payload)⟩ := by
  have ha := appendPadding_pad r p ⟨[newFlags f]⟩ h
  simp only [NewSentMessage, newFlags] at ha ⊢
  rw [ha]
  simp

/-! ## Claims -/

/-- C1: the code contradicts the claim.  At an unsigned one-byte message,
when `crypto.Sign` succeeds with a 65-byte signature, `sign` leaves `Raw`
unchanged and reports no error (nothing is appended, the flag stays
clear); when `crypto.Sign` fails, `sign` appends the (nil) signature
slice, sets the signed flag and returns the error — the exact inversion of
the claimed behaviour. -/
theorem sign_inversion_at_failing_input :
    sign keccakId ecdsaSignOk 0 ⟨[0]⟩ = (⟨[0]⟩, none) ∧
    sign keccakId ecdsaSignFail 0 ⟨[0]⟩ = (⟨[signatureFlag]⟩, some "sign failed") :=
  ⟨rfl, rfl⟩

/-- C7 counterexample: signing an already-signed message (flags byte
`signatureFlag`) surfaces no error at all — the returned error is `none`,
refuting "calling sign on such a message surfaces an error". -/
theorem sign_already_signed_counterexample :
    sign keccakId ecdsaSignOk 0 ⟨[signatureFlag]⟩ = (⟨[signatureFlag]⟩, none) :=
  rfl

/-- C7 amended: calling `sign` on a message whose signed flag is already
set leaves `Raw` unchanged and returns a nil error; the state guard only
logs the condition. -/
theorem sign_already_signed_guard (keccak : List Nat → List Nat)
    (ecdsaS : List Nat → Nat → List Nat × Option String) (key : Nat) (msg : SentMessage)
    (h : isMessageSigned (msg.raw.headD 0) = true) :
    sign keccak ecdsaS key msg = (msg, none) := by
  unfold sign
  rw [if_pos h]

/-- C7 witness: the guard at a concrete already-signed message. -/
theorem sign_already_signed_guard_witness :
    sign keccakId ecdsaSignOk 0 ⟨[5, 9]⟩ = (⟨[5, 9]⟩, none) :=
  sign_already_signed_guard keccakId ecdsaSignOk 0 ⟨[5, 9]⟩ (by decide)

/-- C3 counterexample: instantiating the external PBKDF2 with a probe
that returns the iteration count it is given, `DeriveOneTimeKey` at
version 0 yields iteration count 16, not the 65536 the claim states. -/
theorem deriveOneTimeKey_iter_counterexample :
    DeriveOneTimeKey pbkdf2Probe [] [] 0 = .ok [16] ∧
    DeriveOneTimeKeySpec pbkdf2Probe [] [] = [65536] ∧
    DeriveOneTimeKey pbkdf2Probe [] [] 0 ≠ .ok (DeriveOneTimeKeySpec pbkdf2Probe [] []) := by
  refine ⟨rfl, rfl, fun h => ?_⟩
  have h2 := Except.ok.inj h
  simp [DeriveOneTimeKeySpec, pbkdf2Probe] at h2

/-- C3 amended: for every PBKDF2 implementation, key and salt,
`DeriveOneTimeKey key salt 0` returns the derivation with iteration count
16 and output length `aesKeyLength = 32`. -/
theorem deriveOneTimeKey_iterations
    (pbkdf2Key : List Nat → List Nat → Nat → Nat → List Nat) (key salt : List Nat) :
    DeriveOneTimeKey pbkdf2Key key salt 0 = .ok (pbkdf2Key key salt 16 aesKeyLength) :=
  rfl

/-- C10: `appendPadding` never reaches its panic branch — on every input
it returns `.ok` (the modelled panic is the only `.error` result).  On the
padding branch the chunk is 256 and the remainder is positive, so the
computed pad size is at most 255. -/
theorem appendPadding_never_panics (rand : Nat → Nat) (params : MessageParams)
    (msg : SentMessage) :
    ∃ m, appendPadding rand params msg = .ok m := by
  by_cases h : totalOf params % 256 = 0
  · exact ⟨msg, appendPadding_noPad rand params msg h⟩
  · exact ⟨_, appendPadding_pad rand params msg h⟩

/-- C4: in the plaintext assembled by `NewSentMessage`, whenever a padding
block is present (its length is non-zero), `(1 + paddingLen + payloadLen +
(65 if Src else 0)) mod 256 = 0` and the flags byte records `padSizeLen =
1`; when the plaintext size is already a multiple of 256 the padding block
is omitted and `padSizeLen` is zero. -/
theorem padding_size_law (f : Nat) (r : Nat → Nat) (p : MessageParams) (msg : SentMessage)
    (h : NewSentMessage f r p = .ok msg) :
    (msg.raw.length - 1 - p.payload.length ≠ 0 →
        (1 + p.payload.length + (if p.src.isSome then signatureLength else 0) +
          (msg.raw.length - 1 - p.payload.length)) % 256 = 0 ∧
        (msg.raw.headD 0) &&& paddingMask = 1) ∧
    ((1 + p.payload.length + (if p.src.isSome then signatureLength else 0)) % 256 = 0 →
        msg.raw.length - 1 - p.payload.length = 0 ∧
        (msg.raw.headD 0) &&& paddingMask = 0) := by
  have htotal : totalOf p = 1 + p.payload.length + (if p.src.isSome then signatureLength else 0) := by
    unfold totalOf
    omega
  by_cases htot : totalOf p % 256 = 0
  · rw [newSentMessage_noPad f r p htot] at h
    have hm : msg = ⟨newFlags f :: p.payload⟩ := (Except.ok.inj h).symm
    subst hm
    constructor
    · intro hne
      exact absurd (by simp) hne
    · intro _
      exact ⟨by simp, by simpa using (newFlags_bits f).1⟩
  · rw [newSentMessage_pad f r p htot] at h
    have hm : msg = ⟨(newFlags f ||| 1) :: (256 - totalOf p % 256) ::
        (padTail r p (256 - totalOf p % 256) ++ p.payload)⟩ := (Except.ok.inj h).symm
    subst hm
    have hrem : totalOf p % 256 < 256 := Nat.mod_lt _ (by norm_num)
    have hlen : (⟨(newFlags f ||| 1) :: (256 - totalOf p % 256) ::
        (padTail r p (256 - totalOf p % 256) ++ p.payload)⟩ : SentMessage).raw.length =
        2 + ((256 - totalOf p % 256) - 1) + p.payload.length := by
      simp [padTail_length]
      omega
    constructor
    · intro _
      refine ⟨?_, by simpa using (newFlags_bits f).2.2⟩
      rw [← htotal]
      rw [hlen]
      omega
    · intro h0
      rw [← htotal] at h0
      exact absurd h0 htot

set_option maxRecDepth 100000 in
/-- C4 witness: a 254-byte payload forces a one-byte padding block and the
law holds at the concrete message. -/
theorem padding_size_law_witness :
    (1 + params254.payload.length + (if params254.src.isSome then signatureLength else 0) +
      (msg254.raw.length - 1 - params254.payload.length)) % 256 = 0 ∧
    (msg254.raw.headD 0) &&& paddingMask = 1 :=
  (padding_size_law 0 (fun _ => 5) params254 msg254 (by rfl)).1 (by decide)

/-- C5: for every buffer `NewSentMessage` produces with a non-empty
padding block, `extractPadding` succeeds and returns exactly the padding
length that `appendPadding` encoded (little-endian, one byte) at position
1 of the buffer, namely `256 - total % 256`. -/
theorem padding_roundtrip (f : Nat) (r : Nat → Nat) (p : MessageParams) (msg : SentMessage)
    (h : NewSentMessage f r p = .ok msg)
    (hpad : (1 + p.payload.length + (if p.src.isSome then signatureLength else 0)) % 256 ≠ 0) :
    (extractPadding { raw := msg.raw } msg.raw.length).2 = (msg.raw.getD 1 0, true) ∧
    msg.raw.getD 1 0 =
      256 - (1 + p.payload.length + (if p.src.isSome then signatureLength else 0)) % 256 := by
  have htotal : totalOf p = 1 + p.payload.length + (if p.src.isSome then signatureLength else 0) := by
    unfold totalOf
    omega
  rw [← htotal] at hpad ⊢
  rw [newSentMessage_pad f r p hpad] at h
  have hm : msg = ⟨(newFlags f ||| 1) :: (256 - totalOf p % 256) ::
      (padTail r p (256 - totalOf p % 256) ++ p.payload)⟩ := (Except.ok.inj h).symm
  subst hm
  have hrem : totalOf p % 256 < 256 := Nat.mod_lt _ (by norm_num)
  have hsz := (newFlags_bits f).2.2
  have hL0 : ((newFlags f ||| 1) :: (256 - totalOf p % 256) ::
      (padTail r p (256 - totalOf p % 256) ++ p.payload)).length =
      2 + ((256 - totalOf p % 256) - 1) + p.payload.length := by
    simp [padTail_length]
    omega
  have htake : (((newFlags f ||| 1) :: (256 - totalOf p % 256) ::
      (padTail r p (256 - totalOf p % 256) ++ p.payload)).drop 1).take 1 =
      [256 - totalOf p % 256] := rfl
  have hbytes : bytesToIntLittleEndian [256 - totalOf p % 256] = 256 - totalOf p % 256 := by
    simp [bytesToIntLittleEndian]
  constructor
  · unfold extractPadding
    simp only [List.headD_cons]
    rw [hsz]
    rw [if_pos (by norm_num : (1 : Nat) ≠ 0)]
    rw [htake, hbytes]
    rw [if_neg (by
      rw [hL0]
      omega)]
    simp
  · simp

set_option maxRecDepth 100000 in
/-- C5 witness: the round trip at the concrete 254-byte-payload message,
whose padding block is the single byte `[1]`. -/
theorem padding_roundtrip_witness :
    (extractPadding { raw := msg254.raw } msg254.raw.length).2 = (msg254.raw.getD 1 0, true) ∧
    msg254.raw.getD 1 0 =
      256 - (1 + params254.payload.length +
        (if params254.src.isSome then signatureLength else 0)) % 256 :=
  padding_roundtrip 0 (fun _ => 5) params254 msg254 (by rfl) (by decide)

lemma validateTail_reject (m : ReceivedMessage) (endPos : Nat)
    (hsz : (m.raw.headD 0) &&& paddingMask ≠ 0)
    (hbad : bytesToIntLittleEndian ((m.raw.drop 1).take ((m.raw.headD 0) &&& paddingMask)) <
        (m.raw.headD 0) &&& paddingMask ∨
      bytesToIntLittleEndian ((m.raw.drop 1).take ((m.raw.headD 0) &&& paddingMask)) + 1 >
        endPos) :
    (extractPadding m endPos).2.2 = false ∧ (validateTail m endPos).2 = false := by
  have hE : extractPadding m endPos = (m, 0, false) := by
    unfold extractPadding
    rw [if_pos hsz, if_pos hbad]
  refine ⟨by rw [hE], ?_⟩
  unfold validateTail
  rw [hE]

/-- C6: a decrypted buffer whose `padSizeLen` field is non-zero is
rejected — `extractPadding` fails and `Validate` returns `false` — when
the encoded padding length is smaller than `padSizeLen` or the padding
block would exceed the remaining buffer (the buffer length, less the
signature when the signed flag is set). -/
theorem extract_padding_rejection (keccak : List Nat → List Nat)
    (sigToPub : List Nat → List Nat → Option Nat) (m : ReceivedMessage)
    (hsz : (m.raw.headD 0) &&& paddingMask ≠ 0)
    (hbad : bytesToIntLittleEndian ((m.raw.drop 1).take ((m.raw.headD 0) &&& paddingMask)) <
        (m.raw.headD 0) &&& paddingMask ∨
      bytesToIntLittleEndian ((m.raw.drop 1).take ((m.raw.headD 0) &&& paddingMask)) + 1 >
        (if isMessageSigned (m.raw.headD 0) then m.raw.length - signatureLength
         else m.raw.length)) :
    (extractPadding m (if isMessageSigned (m.raw.headD 0) then m.raw.length - signatureLength
        else m.raw.length)).2.2 = false ∧
    (Validate keccak sigToPub m).2 = false := by
  refine ⟨(validateTail_reject m _ hsz hbad).1, ?_⟩
  simp only [Validate]
  split
  · rfl
  · split
    next hsig =>
      split
      · rfl
      · split
        · rfl
        · rw [if_pos hsig] at hbad
          refine (validateTail_reject _ _ ?_ ?_).2
          · exact hsz
          · exact hbad
    next hsig =>
      rw [if_neg hsig] at hbad
      exact (validateTail_reject _ _ hsz hbad).2

/-- C6 witness: flags byte 1 announces a one-byte padding-size field, but
the encoded padding length 0 is smaller than the field width 1. -/
theorem extract_padding_rejection_witness :
    (extractPadding badPadMsg (if isMessageSigned (badPadMsg.raw.headD 0)
        then badPadMsg.raw.length - signatureLength else badPadMsg.raw.length)).2.2 = false ∧
    (Validate keccakId (fun _ _ => some 1) badPadMsg).2 = false :=
  extract_padding_rejection keccakId (fun _ _ => some 1) badPadMsg (by decide) (by decide)

lemma validateTail_true (m m' : ReceivedMessage) (endPos : Nat)
    (h : validateTail m endPos = (m', true)) :
    (isSymmetricEncryption m' != isAsymmetricEncryption m') = true := by
  unfold validateTail at h
  split at h
  · simp at h
  · rw [Prod.mk.injEq] at h
    obtain ⟨h1, h2⟩ := h
    rw [← h1]
    exact h2

/-- C8: whenever `Validate` returns `true`, exactly one of the symmetric
mode (`TopicKeyHash` non-zero) and the asymmetric mode (`Dst` non-nil)
holds on the resulting message. -/
theorem validate_mode_exclusive (keccak : List Nat → List Nat)
    (sigToPub : List Nat → List Nat → Option Nat) (m m' : ReceivedMessage)
    (h : Validate keccak sigToPub m = (m', true)) :
    (isSymmetricEncryption m' != isAsymmetricEncryption m') = true := by
  simp only [Validate] at h
  split at h
  · simp at h
  · split at h
    · split at h
      · simp at h
      · split at h
        · simp at h
        · exact validateTail_true _ _ _ h
    · exact validateTail_true _ _ _ h

/-- C8 witness: a symmetric-mode message that validates. -/
theorem validate_mode_exclusive_witness :
    (isSymmetricEncryption symMsg != isAsymmetricEncryption symMsg) = true :=
  validate_mode_exclusive keccakId (fun _ _ => some 1) symMsg symMsg (by rfl)

/-- C9: decryption is atomic on failure.  Whenever `decryptSymmetric` or
`decryptAsymmetric` reports an error, the returned message's `Raw` equals
the input's `Raw`; on success `Raw` is exactly the decrypted plaintext
produced by the final primitive. -/
theorem decrypt_raw_atomic (P : Prims) (m : ReceivedMessage) (key salt nonce : List Nat)
    (pk : Nat) :
    (∀ m' e, decryptSymmetric P m key salt nonce = (m', some e) → m'.raw = m.raw) ∧
    (∀ m', decryptSymmetric P m key salt nonce = (m', none) →
        ∃ dk blk g d, DeriveOneTimeKey P.pbkdf2Key key salt m.envelopeVersion = .ok dk ∧
          P.aesNewCipher dk = .ok blk ∧ P.newGCM blk = .ok g ∧
          P.gcmOpen g nonce m.raw = .ok d ∧ m' = { m with raw := d }) ∧
    (∀ m' e, decryptAsymmetric P m pk = (m', some e) → m'.raw = m.raw) ∧
    (∀ m', decryptAsymmetric P m pk = (m', none) →
        ∃ d, P.eciesDecrypt pk m.raw = .ok d ∧ m' = { m with raw := d }) := by
  refine ⟨?_, ?_, ?_, ?_⟩
  · intro m' e h
    unfold decryptSymmetric at h
    split at h
    next e1 heq =>
      rw [Prod.mk.injEq] at h
      rw [← h.1]
    next dk heq =>
      split at h
      next e1 heq2 =>
        rw [Prod.mk.injEq] at h
        rw [← h.1]
      next blk heq2 =>
        split at h
        next e1 heq3 =>
          rw [Prod.mk.injEq] at h
          rw [← h.1]
        next g heq3 =>
          split at h
          next hn =>
            rw [Prod.mk.injEq] at h
            rw [← h.1]
          next hn =>
            split at h
            next e1 heq4 =>
              rw [Prod.mk.injEq] at h
              rw [← h.1]
            next d heq4 =>
              rw [Prod.mk.injEq] at h
              exact absurd h.2 (by simp)
  · intro m' h
    unfold decryptSymmetric at h
    split at h
    next e1 heq => simp at h
    next dk heq =>
      split at h
      next e1 heq2 => simp at h
      next blk heq2 =>
        split at h
        next e1 heq3 => simp at h
        next g heq3 =>
          split at h
          next hn => simp at h
          next hn =>
            split at h
            next e1 heq4 => simp at h
            next d heq4 =>
              rw [Prod.mk.injEq] at h
              exact ⟨dk, blk, g, d, heq, heq2, heq3, heq4, h.1.symm⟩
  · intro m' e h
    unfold decryptAsymmetric at h
    split at h
    · rw [Prod.mk.injEq] at h
      exact absurd h.2 (by simp)
    · rw [Prod.mk.injEq] at h
      rw [← h.1]
  · intro m' h
    unfold decryptAsymmetric at h
    split at h
    next d heq =>
      rw [Prod.mk.injEq] at h
      exact ⟨d, heq, h.1.symm⟩
    next e1 heq => simp at h

/-- C9 witness: with an AES constructor that fails, the symmetric
decryption of a concrete message leaves `Raw` unchanged. -/
theorem decrypt_raw_atomic_witness :
    (decryptSymmetric P0 rcv0 [] [] []).1.raw = rcv0.raw :=
  (decrypt_raw_atomic P0 rcv0 [] [] [] 0).1 (decryptSymmetric P0 rcv0 [] [] []).1
    "no cipher" (by rfl)

/-- C2 counterexample: with both `Dst` and `KeySym` set (and benign
primitives), `Wrap` raises no configuration error at all — it encrypts
asymmetrically and produces an envelope, refuting the claim that this
configuration surfaces `ParamInvalid` and produces no envelope. -/
theorem wrap_both_set_counterexample :
    Wrap P0 bothSetParams ⟨[0]⟩ =
      .ok { ttl := 10, topic := 0, salt := [], nonce := [], data := [0] } :=
  rfl

/-- C2 amended: with no sender key and an in-bounds buffer, `Wrap` with
both `Dst` and `KeySym` empty returns the "neither Dst nor Key" error and
produces no envelope, while a non-empty `Dst` takes precedence
unconditionally (no configuration error is raised when both are set);
the error is raised after the signing and size steps, not before. -/
theorem wrap_encryption_choice (P : Prims) (options : MessageParams) (msg : SentMessage)
    (hsrc : options.src = none) (hlen : msg.raw.length ≤ msgMaxLength) :
    (options.dst = none → options.keySym = none →
        Wrap P options msg = .error "Unable to encrypt the message: neither Dst nor Key") ∧
    (∀ pk, options.dst = some pk →
        Wrap P options msg =
          match encryptAsymmetric P pk msg with
          | .error e => .error e
          | .ok m2 => .ok (P.sealEnv (NewEnvelope
              (if options.ttl = 0 then DefaultTTL else options.ttl) options.topic [] [] m2))) := by
  simp only [Wrap, hsrc]
  rw [if_neg (Nat.not_lt.mpr hlen)]
  constructor
  · intro hd hk
    rw [hd, hk]
  · intro pk hd
    rw [hd]

/-- C2 witness: with neither key set, `Wrap` fails and emits nothing. -/
theorem wrap_encryption_choice_witness :
    Wrap P0 neitherParams ⟨[0]⟩ = .error "Unable to encrypt the message: neither Dst nor Key" :=
  (wrap_encryption_choice P0 neitherParams ⟨[0]⟩ rfl (by decide)).1 rfl rfl

end Whisper05
